import Mathlib

/-!
Verification of the scipy sparse-matrix NPZ codec (`src/sparse.rs`).

The codec is embedded shallowly: an NPZ archive is a list of named stored
arrays; a stored array carries its declared shape, memory order and payload.
Decoding functions mirror the `from_npz`/`extract_*` helpers of the source,
returning `Except String` where the source returns `io::Result` (the error
value is the message passed to `invalid_data`).  Encoding functions mirror the
`write_npz`/`write_*` helpers, producing the archive as a value; a Rust panic
(a violated `assert_eq!`, or the divide-by-zero it can trigger) is modelled as
`Option.none`.  Machine integers are modelled as `Nat`/`Int` with the exact
two's-complement cast formulas of `as`-casts spelled out.
-/

set_option maxHeartbeats 1000000

namespace Npyz

/-- Memory order declared in an npy header: row-major (C) or column-major (Fortran). -/
inductive Order
  | C
  | Fortran
deriving DecidableEq

/-- An array stored in an NPZ archive, as the sparse codec observes it through
the typed-array layer: a declared shape, a memory order, and the payload.
Integer index arrays appear with dtype i32 (`I32`) or i64 (`I64`), holding the
mathematical values of the stored machine integers; the discriminator appears
as a byte-string array (`Bytes`, bytes as naturals below 256); `Data` holds an
array whose elements deserialize at the caller-selected element type `T`. -/
inductive Entry (T : Type)
  | I32 (shape : List Nat) (order : Order) (vals : List Int)
  | I64 (shape : List Nat) (order : Order) (vals : List Int)
  | Bytes (shape : List Nat) (order : Order) (vals : List (List Nat))
  | Data (shape : List Nat) (order : Order) (vals : List T)
deriving DecidableEq

/-- An NPZ archive: named arrays, in write order. -/
abbrev Npz (T : Type) := List (String × Entry T)

variable {T : Type}

/-- Declared shape of a stored array (`npy.shape()`). -/
def Entry.eshape : Entry T → List Nat
  | .I32 s _ _ => s
  | .I64 s _ _ => s
  | .Bytes s _ _ => s
  | .Data s _ _ => s

/-- Memory order of a stored array (`npy.order()`). -/
def Entry.eorder : Entry T → Order
  | .I32 _ o _ => o
  | .I64 _ o _ => o
  | .Bytes _ o _ => o
  | .Data _ o _ => o

/-- Dtype descriptor of a stored array (`npy.dtype().descr()`).  Descriptors of
byte-string and element dtypes come from the external header layer and are
abstracted to fixed strings here; no claim inspects them. -/
def Entry.descr : Entry T → String
  | .I32 _ _ _ => "<i4"
  | .I64 _ _ _ => "<i8"
  | .Bytes _ _ _ => "|S"
  | .Data _ _ _ => "external dtype"

/-- `npz.by_name(name)`: the first array stored under `name`, if any. -/
def byName : Npz T → String → Option (Entry T)
  | [], _ => none
  | p :: rest, name => if p.1 == name then some p.2 else byName rest name

-- ===========================================================================
-- Integer casts (Rust `as`-cast semantics on a 64-bit target)

/-- Rust `x as u64` on a signed (i32 or i64) value: sign extension followed by
a two's-complement bit-cast. -/
def asU64 (x : Int) : Nat := (x % (2 ^ 64 : Int)).toNat

/-- Rust `x as i64` on a `u64` (or 64-bit `usize`) value: two's-complement bit-cast. -/
def u64AsI64 (x : Nat) : Int := if x < 2 ^ 63 then (x : Int) else (x : Int) - 2 ^ 64

/-- Rust `x as i32` on an `i64` value: truncation to the low 32 bits. -/
def i64AsI32 (x : Int) : Int := (x + 2 ^ 31) % 2 ^ 32 - 2 ^ 31

/-- Rust `x as usize` on a `u64` value, on a 64-bit target. -/
def u64AsUsize (x : Nat) : Nat := x % 2 ^ 64

/-- `i32::MAX`. -/
def i32MAX : Int := 2147483647

/-- The bytes of a string (`s.as_bytes()`).  The codec only applies this to
ASCII format tags, for which the UTF-8 bytes coincide with the codepoints. -/
def strBytes (s : String) : List Nat := s.data.map (fun c => c.toNat)

-- ===========================================================================
-- Diagnostic messages (the strings handed to `invalid_data`)

/-- The single-quote character used by several diagnostic messages. -/
def sq : String := String.singleton (Char.ofNat 39)

/-- Uppercase hexadecimal digit (for `format!` with `:02X`). -/
def hexDigit (n : Nat) : Char := if n < 10 then Char.ofNat (48 + n) else Char.ofNat (55 + n)

/-- `show_format`: printable rendering of the discriminator bytes; a byte in
`0x20..=0x7f` prints as its character, anything else escapes as `\xNN`
(two uppercase hex digits); the whole rendering is wrapped in single quotes. -/
def show_format (format : List Nat) : String :=
  sq ++ String.join (format.map (fun b =>
    if 0x20 ≤ b ∧ b ≤ 0x7f then String.singleton (Char.ofNat b)
    else "\\x" ++ String.singleton (hexDigit (b / 16 % 16)) ++ String.singleton (hexDigit (b % 16)))) ++ sq

/-- Message for an array absent from the archive. -/
def missingMsg (name : String) : String :=
  "missing array " ++ sq ++ name ++ sq ++ " from sparse array"

/-- Message for an array whose rank differs from the expected rank. -/
def ndimMsg (name : String) (got expected : Nat) : String :=
  "invalid ndim for " ++ name ++ ": " ++ toString got ++ " (expected " ++ toString expected ++ ")"

/-- Message for an index array stored with a dtype other than i32 or i64. -/
def dtypeMsg (name : String) (descr : String) : String :=
  "invalid dtype for " ++ sq ++ name ++ sq ++ " in sparse matrix: " ++ descr

/-- Message for a shape array whose length is not 2. -/
def shapeLenMsg (name : String) (got : Nat) : String :=
  "invalid length for " ++ sq ++ name ++ sq ++ " (got " ++ toString got ++ ", expected 2)"

/-- Message for a stored discriminator that differs from a decoder's own tag. -/
def wrongFormatMsg (expected : String) (format : List Nat) : String :=
  "wrong format: expected " ++ sq ++ expected ++ sq ++ ", got " ++ show_format format

/-- Message for an unrecognized discriminator at the dispatch level. -/
def badFormatMsg (format : List Nat) : String :=
  "bad format: " ++ show_format format

/-- Message for a multi-dimensional array not stored in C order. -/
def fortranMsg (name : String) : String :=
  "fortran order is not currently supported for array " ++ sq ++ name ++ sq ++ " in sparse NPZ file"

/-- Stand-in for the pass-through element-deserialization failure of the
external typed-array layer (`npy.into_vec::<T>()` on an incompatible dtype);
the source propagates that layer's error unchanged and no claim inspects it. -/
def deserMsg (name : String) : String :=
  "element deserialization failed for array " ++ sq ++ name ++ sq

-- ===========================================================================
-- Records (the data model)

/-- Raw representation of a `scipy.sparse.coo_matrix`. -/
structure Coo (T : Type) where
  shape : Nat × Nat
  data : List T
  row : List Nat
  col : List Nat
deriving DecidableEq

/-- Raw representation of a `scipy.sparse.csr_matrix`. -/
structure Csr (T : Type) where
  shape : Nat × Nat
  data : List T
  indices : List Nat
  indptr : List Nat
deriving DecidableEq

/-- Raw representation of a `scipy.sparse.csc_matrix`. -/
structure Csc (T : Type) where
  shape : Nat × Nat
  data : List T
  indices : List Nat
  indptr : List Nat
deriving DecidableEq

/-- Raw representation of a `scipy.sparse.dia_matrix`. -/
structure Dia (T : Type) where
  shape : Nat × Nat
  data : List T
  offsets : List Int
deriving DecidableEq

/-- Raw representation of a `scipy.sparse.bsr_matrix`. -/
structure Bsr (T : Type) where
  shape : Nat × Nat
  blocksize : Nat × Nat
  data : List T
  indices : List Nat
  indptr : List Nat
deriving DecidableEq

/-- Raw representation of a scipy sparse matrix, in any format. -/
inductive Sparse (T : Type)
  | Coo (m : Npyz.Coo T)
  | Csr (m : Npyz.Csr T)
  | Csc (m : Npyz.Csc T)
  | Dia (m : Npyz.Dia T)
  | Bsr (m : Npyz.Bsr T)
deriving DecidableEq

-- ===========================================================================
-- Reading

/-- `extract_and_check_ndim`: fetch an array by name and check its rank. -/
def extract_and_check_ndim (npz : Npz T) (name : String) (expected_ndim : Nat) :
    Except String (Entry T) :=
  match byName npz name with
  | none => .error (missingMsg name)
  | some npy =>
    if npy.eshape.length ≠ expected_ndim then
      .error (ndimMsg name npy.eshape.length expected_ndim)
    else
      .ok npy

/-- `extract_scalar::<Vec<u8>>`: fetch a rank-0 byte-string array and take its
single element.  (The source's `.expect` panic on an empty element stream is
modelled as an error; a rank-0 array always holds exactly one element.) -/
def extract_scalar (npz : Npz T) (name : String) : Except String (List Nat) := do
  let npy ← extract_and_check_ndim npz name 0
  match npy with
  | .Bytes _ _ vals =>
    match vals.head? with
    | some v => .ok v
    | none => .error "scalar so must have 1 elem"
  | _ => .error (deserMsg name)

/-- `extract_indices`: fetch a rank-1 integer array stored as i32 or i64 and
widen each element with `as u64`. -/
def extract_indices (npz : Npz T) (name : String) : Except String (List Nat) := do
  let npy ← extract_and_check_ndim npz name 1
  match npy with
  | .I32 _ _ vals => .ok (vals.map asU64)
  | .I64 _ _ vals => .ok (vals.map asU64)
  | npy => .error (dtypeMsg name npy.descr)

/-- `extract_signed_indices`: fetch a rank-1 integer array stored as i32 or
i64, widened to i64 (`as i64` on an i32 value is the mathematical identity). -/
def extract_signed_indices (npz : Npz T) (name : String) : Except String (List Int) := do
  let npy ← extract_and_check_ndim npz name 1
  match npy with
  | .I32 _ _ vals => .ok vals
  | .I64 _ _ vals => .ok vals
  | npy => .error (dtypeMsg name npy.descr)

/-- `extract_usize_indices`: `extract_indices` followed by `as usize`. -/
def extract_usize_indices (npz : Npz T) (name : String) : Except String (List Nat) := do
  let v ← extract_indices npz name
  .ok (v.map u64AsUsize)

/-- `extract_shape`: fetch the `shape` array and require exactly two elements. -/
def extract_shape (npz : Npz T) (name : String) : Except String (Nat × Nat) := do
  let shape ← extract_indices npz name
  match shape with
  | [a, b] => .ok (a, b)
  | l => .error (shapeLenMsg name l.length)

/-- `extract_1d`: fetch a rank-1 array and deserialize its elements at `T`. -/
def extract_1d (npz : Npz T) (name : String) : Except String (List T) := do
  let npy ← extract_and_check_ndim npz name 1
  match npy with
  | .Data _ _ vals => .ok vals
  | _ => .error (deserMsg name)

/-- `extract_nd`: fetch an array of the expected rank, require C order, and
return its elements together with its declared shape. -/
def extract_nd (npz : Npz T) (name : String) (expected_ndim : Nat) :
    Except String (List T × List Nat) := do
  let npy ← extract_and_check_ndim npz name expected_ndim
  if npy.eorder ≠ Order.C then
    .error (fortranMsg name)
  else
    match npy with
    | .Data sh _ vals => .ok (vals, sh)
    | _ => .error (deserMsg name)

/-- `expect_format`: re-read the discriminator and require it to equal the
decoder's own tag. -/
def expect_format (npz : Npz T) (expected : String) : Except String Unit := do
  let format ← extract_scalar npz "format"
  if format ≠ strBytes expected then
    .error (wrongFormatMsg expected format)
  else
    .ok ()

/-- `Coo::from_npz`. -/
def Coo.from_npz (npz : Npz T) : Except String (Coo T) := do
  let _ ← expect_format npz "coo"
  let shape ← extract_shape npz "shape"
  let row ← extract_indices npz "row"
  let col ← extract_indices npz "col"
  let data ← extract_1d npz "data"
  .ok { data, shape, row, col }

/-- `Csr::from_npz`. -/
def Csr.from_npz (npz : Npz T) : Except String (Csr T) := do
  let _ ← expect_format npz "csr"
  let shape ← extract_shape npz "shape"
  let indices ← extract_indices npz "indices"
  let indptr ← extract_usize_indices npz "indptr"
  let data ← extract_1d npz "data"
  .ok { data, shape, indices, indptr }

/-- `Csc::from_npz`. -/
def Csc.from_npz (npz : Npz T) : Except String (Csc T) := do
  let _ ← expect_format npz "csc"
  let shape ← extract_shape npz "shape"
  let indices ← extract_indices npz "indices"
  let indptr ← extract_usize_indices npz "indptr"
  let data ← extract_1d npz "data"
  .ok { data, shape, indices, indptr }

/-- `Dia::from_npz`.  Note that the declared 2-D shape of `data` is discarded
(the source binds it to `_`). -/
def Dia.from_npz (npz : Npz T) : Except String (Dia T) := do
  let _ ← expect_format npz "dia"
  let shape ← extract_shape npz "shape"
  let offsets ← extract_signed_indices npz "offsets"
  let data ← extract_nd npz "data" 2
  .ok { data := data.1, shape, offsets }

/-- `Bsr::from_npz`.  The blocksize is read from dimensions 1 and 2 of the
declared 3-D shape of `data` (present because of the rank check; the source
indexes `data_shape[1]` and `data_shape[2]`). -/
def Bsr.from_npz (npz : Npz T) : Except String (Bsr T) := do
  let _ ← expect_format npz "bsr"
  let shape ← extract_shape npz "shape"
  let indices ← extract_indices npz "indices"
  let indptr ← extract_usize_indices npz "indptr"
  let data ← extract_nd npz "data" 3
  .ok { data := data.1, shape, indices, indptr,
        blocksize := ((data.2.getD 1 0), (data.2.getD 2 0)) }

/-- `Sparse::from_npz`: dispatch on the stored discriminator. -/
def Sparse.from_npz (npz : Npz T) : Except String (Sparse T) := do
  let format ← extract_scalar npz "format"
  if format = strBytes "coo" then Sparse.Coo <$> Coo.from_npz npz
  else if format = strBytes "csc" then Sparse.Csc <$> Csc.from_npz npz
  else if format = strBytes "csr" then Sparse.Csr <$> Csr.from_npz npz
  else if format = strBytes "dia" then Sparse.Dia <$> Dia.from_npz npz
  else if format = strBytes "bsr" then Sparse.Bsr <$> Bsr.from_npz npz
  else .error (badFormatMsg format)

-- ===========================================================================
-- Writing

/-- `Iterator::max().unwrap_or(0)` over a sequence of i64 values. -/
def iterMax : List Int → Option Int
  | [] => none
  | x :: xs =>
    match iterMax xs with
    | none => some x
    | some m => some (max x m)

/-- Maximum of a sequence of i64 values, or 0 when empty. -/
def maxOrZero (l : List Int) : Int := (iterMax l).getD 0

/-- `write_format`: a rank-0 byte-string array holding the tag. -/
def write_format (format : String) : String × Entry T :=
  ("format", .Bytes [] .C [strBytes format])

/-- `write_shape`: the two dimensions cast `as i64` and written with the
default (i64) dtype.  (The source's `assert_eq!(shape.len(), 2)` is discharged
by the `[u64; 2]` type of every caller, modelled as a pair.) -/
def write_shape (shape : Nat × Nat) : String × Entry T :=
  ("shape", .I64 [2] .C [u64AsI64 shape.1, u64AsI64 shape.2])

/-- `write_indices`: write signed values as i32 when the maximum (0 for an
empty sequence) is at most `i32::MAX`, otherwise as i64.  The i32 branch casts
each value with `as i32`. -/
def write_indices (name : String) (data : List Int) : String × Entry T :=
  (name,
    if maxOrZero data ≤ i32MAX then
      .I32 [data.length] .C (data.map i64AsI32)
    else
      .I64 [data.length] .C data)

/-- `write_data`: the element payload under the declared shape, in C order. -/
def write_data (data : List T) (shape : List Nat) : String × Entry T :=
  ("data", .Data shape .C data)

/-- `Coo::write_npz`. -/
def Coo.write_npz (m : Coo T) : Option (Npz T) :=
  some [write_format "coo",
        write_shape m.shape,
        write_indices "row" (m.row.map u64AsI64),
        write_indices "col" (m.col.map u64AsI64),
        write_data m.data [m.data.length]]

/-- `Csr::write_npz`. -/
def Csr.write_npz (m : Csr T) : Option (Npz T) :=
  some [write_format "csr",
        write_shape m.shape,
        write_indices "indices" (m.indices.map u64AsI64),
        write_indices "indptr" (m.indptr.map u64AsI64),
        write_data m.data [m.data.length]]

/-- `Csc::write_npz`. -/
def Csc.write_npz (m : Csc T) : Option (Npz T) :=
  some [write_format "csc",
        write_shape m.shape,
        write_indices "indices" (m.indices.map u64AsI64),
        write_indices "indptr" (m.indptr.map u64AsI64),
        write_data m.data [m.data.length]]

/-- `Dia::write_npz`.  `assert_eq!(data.len() % offsets.len(), 0)` panics when
the remainder is nonzero, and the remainder computation itself panics when
`offsets` is empty (division by zero); both panics are modelled as `none`. -/
def Dia.write_npz (m : Dia T) : Option (Npz T) :=
  if m.offsets.length ≠ 0 ∧ m.data.length % m.offsets.length = 0 then
    some [write_format "dia",
          write_shape m.shape,
          write_indices "offsets" m.offsets,
          write_data m.data [m.data.length / m.offsets.length, m.offsets.length]]
  else
    none

/-- `Bsr::write_npz`.  The `assert_eq!` panic is modelled as `none`. -/
def Bsr.write_npz (m : Bsr T) : Option (Npz T) :=
  if m.data.length = m.indices.length * m.blocksize.1 * m.blocksize.2 then
    some [write_format "bsr",
          write_shape m.shape,
          write_indices "indices" (m.indices.map u64AsI64),
          write_indices "indptr" (m.indptr.map u64AsI64),
          write_data m.data [m.indices.length, m.blocksize.1, m.blocksize.2]]
  else
    none

/-- `Sparse::write_npz`. -/
def Sparse.write_npz (m : Sparse T) : Option (Npz T) :=
  match m with
  | .Coo m => m.write_npz
  | .Csr m => m.write_npz
  | .Csc m => m.write_npz
  | .Dia m => m.write_npz
  | .Bsr m => m.write_npz

/-- Storage width, in bytes, of a stored integer array (0 for non-integer
dtypes): the observable of the encoder's width choice. -/
def Entry.width : Entry T → Nat
  | .I32 _ _ _ => 4
  | .I64 _ _ _ => 8
  | _ => 0

-- ===========================================================================
-- Width-independence relation (for comparing archives authored with 4-byte
-- versus 8-byte index arrays)

/-- Two stored arrays are width-variants when they are equal, or they are the
same integer array stored once as i32 and once as i64 with every value
representable in both widths. -/
def entryRel (e1 e2 : Entry T) : Prop :=
  e1 = e2 ∨
    ∃ sh o v, e1 = .I32 sh o v ∧ e2 = .I64 sh o v ∧ ∀ x ∈ v, -(2 ^ 31) ≤ x ∧ x < 2 ^ 31

/-- Two archives are width-variants when they store the same names in the same
order and corresponding arrays are width-variants. -/
def npzRel (a1 a2 : Npz T) : Prop :=
  List.Forall₂ (fun p q => p.1 = q.1 ∧ entryRel p.2 q.2) a1 a2


-- ===========================================================================
-- Basic lemmas: Except bind, casts, iterator maximum

theorem ok_bind {α β : Type} (a : α) (f : α → Except String β) :
    (Except.ok a : Except String α) >>= f = f a := rfl

theorem error_bind {α β : Type} (e : String) (f : α → Except String β) :
    (Except.error e : Except String α) >>= f = (Except.error e : Except String β) := rfl

theorem asU64_u64AsI64 {x : Nat} (h : x < 2 ^ 64) : asU64 (u64AsI64 x) = x := by
  unfold asU64 u64AsI64
  split <;> omega

theorem u64AsI64_of_lt {x : Nat} (h : x < 2 ^ 63) : u64AsI64 x = (x : Int) := by
  unfold u64AsI64
  rw [if_pos h]

theorem i64AsI32_eq {x : Int} (h1 : -(2 ^ 31) ≤ x) (h2 : x ≤ i32MAX) : i64AsI32 x = x := by
  unfold i64AsI32
  unfold i32MAX at h2
  omega

theorem asU64_of_lt {x : Int} (h0 : 0 ≤ x) (h : x < 2 ^ 64) : (asU64 x : Int) = x := by
  unfold asU64
  omega

theorem asU64_lt (x : Int) : asU64 x < 2 ^ 64 := by
  unfold asU64
  omega

theorem u64AsUsize_eq {x : Nat} (h : x < 2 ^ 64) : u64AsUsize x = x := by
  unfold u64AsUsize
  omega

theorem asU64_of_neg {x : Int} (h1 : -(2 ^ 64) < x) (h2 : x < 0) :
    (asU64 x : Int) = 2 ^ 64 + x := by
  unfold asU64
  omega

theorem le_iterMax_of_mem {l : List Int} {x : Int} (h : x ∈ l) :
    ∃ m, iterMax l = some m ∧ x ≤ m := by
  induction l with
  | nil => cases h
  | cons a as ih =>
    rcases List.mem_cons.mp h with rfl | hmem
    · cases hm : iterMax as with
      | none => exact ⟨x, by simp [iterMax, hm], le_refl x⟩
      | some m => exact ⟨max x m, by simp [iterMax, hm], le_max_left x m⟩
    · obtain ⟨m, hm, hle⟩ := ih hmem
      refine ⟨max a m, ?_, le_trans hle (le_max_right a m)⟩
      simp [iterMax, hm]

theorem le_of_maxOrZero_le {l : List Int} {c : Int} (h : maxOrZero l ≤ c) :
    ∀ x ∈ l, x ≤ c := by
  intro x hx
  obtain ⟨m, hm, hle⟩ := le_iterMax_of_mem hx
  have hm2 : maxOrZero l = m := by simp [maxOrZero, hm]
  omega

-- ===========================================================================
-- List-level cast lemmas

theorem map_asU64_u64AsI64 {l : List Nat} (h : ∀ x ∈ l, x < 2 ^ 64) :
    (l.map u64AsI64).map asU64 = l := by
  induction l with
  | nil => rfl
  | cons a as ih =>
    simp only [List.map_cons, List.cons.injEq]
    exact ⟨asU64_u64AsI64 (h a (List.mem_cons_self a as)),
           ih (fun x hx => h x (List.mem_cons_of_mem a hx))⟩

theorem small_elem_roundtrip {x : Nat} (h63 : x < 2 ^ 63) (h32 : u64AsI64 x ≤ i32MAX) :
    asU64 (i64AsI32 (u64AsI64 x)) = x := by
  have h1 : u64AsI64 x = (x : Int) := u64AsI64_of_lt h63
  rw [h1] at h32 ⊢
  rw [i64AsI32_eq (by omega) h32]
  unfold asU64
  omega

theorem map_small_roundtrip {l : List Nat} (h63 : ∀ x ∈ l, x < 2 ^ 63)
    (h32 : ∀ x ∈ l, u64AsI64 x ≤ i32MAX) :
    ((l.map u64AsI64).map i64AsI32).map asU64 = l := by
  induction l with
  | nil => rfl
  | cons a as ih =>
    simp only [List.map_cons, List.cons.injEq]
    exact ⟨small_elem_roundtrip (h63 a (List.mem_cons_self a as))
             (h32 a (List.mem_cons_self a as)),
           ih (fun x hx => h63 x (List.mem_cons_of_mem a hx))
              (fun x hx => h32 x (List.mem_cons_of_mem a hx))⟩

theorem map_i64AsI32_eq {l : List Int} (hlo : ∀ x ∈ l, -(2 ^ 31) ≤ x)
    (hhi : ∀ x ∈ l, x ≤ i32MAX) : l.map i64AsI32 = l := by
  induction l with
  | nil => rfl
  | cons a as ih =>
    simp only [List.map_cons, List.cons.injEq]
    exact ⟨i64AsI32_eq (hlo a (List.mem_cons_self a as)) (hhi a (List.mem_cons_self a as)),
           ih (fun x hx => hlo x (List.mem_cons_of_mem a hx))
              (fun x hx => hhi x (List.mem_cons_of_mem a hx))⟩

theorem map_u64AsUsize_id {l : List Nat} (h : ∀ x ∈ l, x < 2 ^ 64) :
    l.map u64AsUsize = l := by
  induction l with
  | nil => rfl
  | cons a as ih =>
    simp only [List.map_cons, List.cons.injEq]
    exact ⟨u64AsUsize_eq (h a (List.mem_cons_self a as)),
           ih (fun x hx => h x (List.mem_cons_of_mem a hx))⟩

-- ===========================================================================
-- Decoding the arrays produced by the encoder

theorem expect_format_write (npz : Npz T) (tag : String)
    (hfind : byName npz "format" = some (write_format tag : String × Entry T).2) :
    expect_format npz tag = .ok () := by
  unfold expect_format extract_scalar extract_and_check_ndim
  rw [hfind]
  unfold write_format
  show (if strBytes tag ≠ strBytes tag then
          Except.error (wrongFormatMsg tag (strBytes tag))
        else Except.ok ()) = Except.ok ()
  simp

theorem extract_shape_write (npz : Npz T) (s : Nat × Nat)
    (h1 : s.1 < 2 ^ 64) (h2 : s.2 < 2 ^ 64)
    (hfind : byName npz "shape" = some (write_shape s : String × Entry T).2) :
    extract_shape npz "shape" = .ok s := by
  unfold extract_shape extract_indices extract_and_check_ndim
  rw [hfind]
  unfold write_shape
  show Except.ok (asU64 (u64AsI64 s.1), asU64 (u64AsI64 s.2)) = Except.ok s
  rw [asU64_u64AsI64 h1, asU64_u64AsI64 h2]

theorem extract_indices_write (npz : Npz T) (name : String) (l : List Nat)
    (h : ∀ x ∈ l, x < 2 ^ 63)
    (hfind : byName npz name = some (write_indices name (l.map u64AsI64) : String × Entry T).2) :
    extract_indices npz name = .ok l := by
  unfold extract_indices extract_and_check_ndim
  rw [hfind]
  unfold write_indices
  by_cases hc : maxOrZero (l.map u64AsI64) ≤ i32MAX
  · rw [if_pos hc]
    have h32 : ∀ x ∈ l, u64AsI64 x ≤ i32MAX := by
      intro x hx
      exact le_of_maxOrZero_le hc _ (List.mem_map_of_mem _ hx)
    show Except.ok (((l.map u64AsI64).map i64AsI32).map asU64) = Except.ok l
    rw [map_small_roundtrip h h32]
  · rw [if_neg hc]
    show Except.ok ((l.map u64AsI64).map asU64) = Except.ok l
    rw [map_asU64_u64AsI64 (fun x hx => by have := h x hx; omega)]

theorem extract_usize_write (npz : Npz T) (name : String) (l : List Nat)
    (h : ∀ x ∈ l, x < 2 ^ 63)
    (hfind : byName npz name = some (write_indices name (l.map u64AsI64) : String × Entry T).2) :
    extract_usize_indices npz name = .ok l := by
  unfold extract_usize_indices
  rw [extract_indices_write npz name l h hfind]
  rw [ok_bind]
  rw [map_u64AsUsize_id (fun x hx => by have := h x hx; omega)]

theorem extract_signed_write (npz : Npz T) (name : String) (l : List Int)
    (h : ∀ x ∈ l, -(2 ^ 31) ≤ x)
    (hfind : byName npz name = some (write_indices name l : String × Entry T).2) :
    extract_signed_indices npz name = .ok l := by
  unfold extract_signed_indices extract_and_check_ndim
  rw [hfind]
  unfold write_indices
  by_cases hc : maxOrZero l ≤ i32MAX
  · rw [if_pos hc]
    show Except.ok (l.map i64AsI32) = Except.ok l
    rw [map_i64AsI32_eq h (le_of_maxOrZero_le hc)]
  · rw [if_neg hc]
    rfl

theorem extract_1d_write (npz : Npz T) (l : List T) (sh : List Nat)
    (hsh : sh.length = 1)
    (hfind : byName npz "data" = some (write_data l sh : String × Entry T).2) :
    extract_1d npz "data" = .ok l := by
  unfold extract_1d extract_and_check_ndim
  rw [hfind]
  unfold write_data
  simp [Entry.eshape, hsh, ok_bind]

theorem extract_nd_write (npz : Npz T) (l : List T) (sh : List Nat) (k : Nat)
    (hsh : sh.length = k)
    (hfind : byName npz "data" = some (write_data l sh : String × Entry T).2) :
    extract_nd npz "data" k = .ok (l, sh) := by
  unfold extract_nd extract_and_check_ndim
  rw [hfind]
  unfold write_data
  simp [Entry.eshape, Entry.eorder, hsh, ok_bind]

-- ===========================================================================
-- Assembling a decoded record from extractor results

theorem coo_from_parts (npz : Npz T) (m : Coo T)
    (hf : expect_format npz "coo" = .ok ())
    (hs : extract_shape npz "shape" = .ok m.shape)
    (hr : extract_indices npz "row" = .ok m.row)
    (hc : extract_indices npz "col" = .ok m.col)
    (hd : extract_1d npz "data" = .ok m.data) :
    Coo.from_npz npz = .ok m := by
  unfold Coo.from_npz
  rw [hf, hs, hr, hc, hd]
  rfl

theorem csr_from_parts (npz : Npz T) (m : Csr T)
    (hf : expect_format npz "csr" = .ok ())
    (hs : extract_shape npz "shape" = .ok m.shape)
    (hi : extract_indices npz "indices" = .ok m.indices)
    (hp : extract_usize_indices npz "indptr" = .ok m.indptr)
    (hd : extract_1d npz "data" = .ok m.data) :
    Csr.from_npz npz = .ok m := by
  unfold Csr.from_npz
  rw [hf, hs, hi, hp, hd]
  rfl

theorem csc_from_parts (npz : Npz T) (m : Csc T)
    (hf : expect_format npz "csc" = .ok ())
    (hs : extract_shape npz "shape" = .ok m.shape)
    (hi : extract_indices npz "indices" = .ok m.indices)
    (hp : extract_usize_indices npz "indptr" = .ok m.indptr)
    (hd : extract_1d npz "data" = .ok m.data) :
    Csc.from_npz npz = .ok m := by
  unfold Csc.from_npz
  rw [hf, hs, hi, hp, hd]
  rfl

theorem dia_from_parts (npz : Npz T) (m : Dia T) (sh : List Nat)
    (hf : expect_format npz "dia" = .ok ())
    (hs : extract_shape npz "shape" = .ok m.shape)
    (ho : extract_signed_indices npz "offsets" = .ok m.offsets)
    (hd : extract_nd npz "data" 2 = .ok (m.data, sh)) :
    Dia.from_npz npz = .ok m := by
  unfold Dia.from_npz
  rw [hf, hs, ho, hd]
  rfl

theorem bsr_from_parts (npz : Npz T) (m : Bsr T)
    (hf : expect_format npz "bsr" = .ok ())
    (hs : extract_shape npz "shape" = .ok m.shape)
    (hi : extract_indices npz "indices" = .ok m.indices)
    (hp : extract_usize_indices npz "indptr" = .ok m.indptr)
    (hd : extract_nd npz "data" 3
          = .ok (m.data, [m.indices.length, m.blocksize.1, m.blocksize.2])) :
    Bsr.from_npz npz = .ok m := by
  unfold Bsr.from_npz
  rw [hf, hs, hi, hp, hd]
  rfl

-- ===========================================================================
-- Per-variant round trips (under the value-range side conditions forced by
-- the encoder's width truncation)

theorem coo_round_trip (m : Coo T)
    (h1 : m.shape.1 < 2 ^ 64) (h2 : m.shape.2 < 2 ^ 64)
    (hr : ∀ x ∈ m.row, x < 2 ^ 63) (hc : ∀ x ∈ m.col, x < 2 ^ 63) :
    (Coo.write_npz m).map Coo.from_npz = some (Except.ok m) := by
  unfold Coo.write_npz
  simp only [Option.map_some']
  congr 1
  refine coo_from_parts _ m ?_ ?_ ?_ ?_ ?_
  · exact expect_format_write _ _ rfl
  · exact extract_shape_write _ _ h1 h2 rfl
  · exact extract_indices_write _ _ _ hr rfl
  · exact extract_indices_write _ _ _ hc rfl
  · exact extract_1d_write _ m.data [m.data.length] rfl rfl

theorem csr_round_trip (m : Csr T)
    (h1 : m.shape.1 < 2 ^ 64) (h2 : m.shape.2 < 2 ^ 64)
    (hi : ∀ x ∈ m.indices, x < 2 ^ 63) (hp : ∀ x ∈ m.indptr, x < 2 ^ 63) :
    (Csr.write_npz m).map Csr.from_npz = some (Except.ok m) := by
  unfold Csr.write_npz
  simp only [Option.map_some']
  congr 1
  refine csr_from_parts _ m ?_ ?_ ?_ ?_ ?_
  · exact expect_format_write _ _ rfl
  · exact extract_shape_write _ _ h1 h2 rfl
  · exact extract_indices_write _ _ _ hi rfl
  · exact extract_usize_write _ _ _ hp rfl
  · exact extract_1d_write _ m.data [m.data.length] rfl rfl

theorem csc_round_trip (m : Csc T)
    (h1 : m.shape.1 < 2 ^ 64) (h2 : m.shape.2 < 2 ^ 64)
    (hi : ∀ x ∈ m.indices, x < 2 ^ 63) (hp : ∀ x ∈ m.indptr, x < 2 ^ 63) :
    (Csc.write_npz m).map Csc.from_npz = some (Except.ok m) := by
  unfold Csc.write_npz
  simp only [Option.map_some']
  congr 1
  refine csc_from_parts _ m ?_ ?_ ?_ ?_ ?_
  · exact expect_format_write _ _ rfl
  · exact extract_shape_write _ _ h1 h2 rfl
  · exact extract_indices_write _ _ _ hi rfl
  · exact extract_usize_write _ _ _ hp rfl
  · exact extract_1d_write _ m.data [m.data.length] rfl rfl

theorem dia_round_trip (m : Dia T)
    (h1 : m.shape.1 < 2 ^ 64) (h2 : m.shape.2 < 2 ^ 64)
    (ho : ∀ x ∈ m.offsets, -(2 ^ 31) ≤ x)
    (hne : m.offsets.length ≠ 0) (hdvd : m.data.length % m.offsets.length = 0) :
    (Dia.write_npz m).map Dia.from_npz = some (Except.ok m) := by
  unfold Dia.write_npz
  rw [if_pos ⟨hne, hdvd⟩]
  simp only [Option.map_some']
  congr 1
  refine dia_from_parts _ m [m.data.length / m.offsets.length, m.offsets.length] ?_ ?_ ?_ ?_
  · exact expect_format_write _ _ rfl
  · exact extract_shape_write _ _ h1 h2 rfl
  · exact extract_signed_write _ _ _ ho rfl
  · exact extract_nd_write _ _ _ _ rfl rfl

theorem bsr_round_trip (m : Bsr T)
    (h1 : m.shape.1 < 2 ^ 64) (h2 : m.shape.2 < 2 ^ 64)
    (hi : ∀ x ∈ m.indices, x < 2 ^ 63) (hp : ∀ x ∈ m.indptr, x < 2 ^ 63)
    (hlen : m.data.length = m.indices.length * m.blocksize.1 * m.blocksize.2) :
    (Bsr.write_npz m).map Bsr.from_npz = some (Except.ok m) := by
  unfold Bsr.write_npz
  rw [if_pos hlen]
  simp only [Option.map_some']
  congr 1
  refine bsr_from_parts _ m ?_ ?_ ?_ ?_ ?_
  · exact expect_format_write _ _ rfl
  · exact extract_shape_write _ _ h1 h2 rfl
  · exact extract_indices_write _ _ _ hi rfl
  · exact extract_usize_write _ _ _ hp rfl
  · exact extract_nd_write _ _ _ _ rfl rfl


-- ===========================================================================
-- Claim C1

theorem write_indices_entry (name : String) (l : List Int) :
    (write_indices name l : String × Entry T).2
      = if maxOrZero l ≤ i32MAX then Entry.I32 [l.length] Order.C (l.map i64AsI32)
        else Entry.I64 [l.length] Order.C l := rfl

/-- C1 (amended): for every variant, decoding the archive produced by encoding
a record returns the original record, for records whose sequences satisfy the
length relations of the data-model table (indptr values unsorted or not
anchored at 0/nnz included) and, additionally, whose u64 index values (row,
col, indices, indptr) are below 2^63, whose offsets are at least -2^31, and
(for the diagonal variant) whose offsets sequence is nonempty.  The extra
value-range conditions are forced by the encoder's width selection, which
consults only the maximum and truncates values whose i64 image lies below
i32::MIN (see the counterexample). -/
theorem C1_round_trip {T : Type} :
    (∀ m : Coo T, m.shape.1 < 2 ^ 64 → m.shape.2 < 2 ^ 64 →
        (∀ x ∈ m.row, x < 2 ^ 63) → (∀ x ∈ m.col, x < 2 ^ 63) →
        (Coo.write_npz m).map Coo.from_npz = some (Except.ok m)) ∧
    (∀ m : Csr T, m.shape.1 < 2 ^ 64 → m.shape.2 < 2 ^ 64 →
        (∀ x ∈ m.indices, x < 2 ^ 63) → (∀ x ∈ m.indptr, x < 2 ^ 63) →
        (Csr.write_npz m).map Csr.from_npz = some (Except.ok m)) ∧
    (∀ m : Csc T, m.shape.1 < 2 ^ 64 → m.shape.2 < 2 ^ 64 →
        (∀ x ∈ m.indices, x < 2 ^ 63) → (∀ x ∈ m.indptr, x < 2 ^ 63) →
        (Csc.write_npz m).map Csc.from_npz = some (Except.ok m)) ∧
    (∀ m : Dia T, m.shape.1 < 2 ^ 64 → m.shape.2 < 2 ^ 64 →
        (∀ x ∈ m.offsets, -(2 ^ 31) ≤ x) → m.offsets.length ≠ 0 →
        m.data.length % m.offsets.length = 0 →
        (Dia.write_npz m).map Dia.from_npz = some (Except.ok m)) ∧
    (∀ m : Bsr T, m.shape.1 < 2 ^ 64 → m.shape.2 < 2 ^ 64 →
        (∀ x ∈ m.indices, x < 2 ^ 63) → (∀ x ∈ m.indptr, x < 2 ^ 63) →
        m.data.length = m.indices.length * m.blocksize.1 * m.blocksize.2 →
        (Bsr.write_npz m).map Bsr.from_npz = some (Except.ok m)) :=
  ⟨fun m h1 h2 hr hc => coo_round_trip m h1 h2 hr hc,
   fun m h1 h2 hi hp => csr_round_trip m h1 h2 hi hp,
   fun m h1 h2 hi hp => csc_round_trip m h1 h2 hi hp,
   fun m h1 h2 ho hne hdvd => dia_round_trip m h1 h2 ho hne hdvd,
   fun m h1 h2 hi hp hlen => bsr_round_trip m h1 h2 hi hp hlen⟩

/-- C1 counterexample: the diagonal record with `offsets = [-2^31 - 1]` and a
single data element satisfies every length relation of the data-model table,
but the encoder stores the offset as a truncated i32 (the width check consults
only the maximum), so decoding the encoded archive yields a different record. -/
theorem C1_counterexample :
    (Dia.write_npz { shape := (1, 1), data := [(5 : Int)], offsets := [-(2 ^ 31) - 1] }).map
        Dia.from_npz
      = some (Except.ok { shape := (1, 1), data := [(5 : Int)], offsets := [2 ^ 31 - 1] }) ∧
    ({ shape := (1, 1), data := [(5 : Int)], offsets := [2 ^ 31 - 1] } : Dia Int)
      ≠ { shape := (1, 1), data := [(5 : Int)], offsets := [-(2 ^ 31) - 1] } :=
  ⟨rfl, by decide⟩

/-- C1 witness: the round trip evaluated at a concrete record of each variant. -/
theorem C1_round_trip_witness :
    ((Coo.write_npz { shape := (2, 3), data := [(5 : Int), 7], row := [0, 1], col := [2, 0] }).map
        Coo.from_npz
      = some (Except.ok { shape := (2, 3), data := [(5 : Int), 7], row := [0, 1], col := [2, 0] })) ∧
    ((Csr.write_npz { shape := (2, 2), data := [(3 : Int)], indices := [1], indptr := [1, 0, 1] }).map
        Csr.from_npz
      = some (Except.ok { shape := (2, 2), data := [(3 : Int)], indices := [1], indptr := [1, 0, 1] })) ∧
    ((Csc.write_npz { shape := (2, 2), data := [(4 : Int)], indices := [0], indptr := [0, 1, 1] }).map
        Csc.from_npz
      = some (Except.ok { shape := (2, 2), data := [(4 : Int)], indices := [0], indptr := [0, 1, 1] })) ∧
    ((Dia.write_npz { shape := (2, 2), data := [(1 : Int), 2], offsets := [-1] }).map
        Dia.from_npz
      = some (Except.ok { shape := (2, 2), data := [(1 : Int), 2], offsets := [-1] })) ∧
    ((Bsr.write_npz
          { shape := (2, 2), blocksize := (1, 2), data := [(1 : Int), 2],
            indices := [0], indptr := [0, 1] }).map
        Bsr.from_npz
      = some (Except.ok
          { shape := (2, 2), blocksize := (1, 2), data := [(1 : Int), 2],
            indices := [0], indptr := [0, 1] })) :=
  ⟨C1_round_trip.1 _ (by decide) (by decide) (by decide) (by decide),
   C1_round_trip.2.1 _ (by decide) (by decide) (by decide) (by decide),
   C1_round_trip.2.2.1 _ (by decide) (by decide) (by decide) (by decide),
   C1_round_trip.2.2.2.1 _ (by decide) (by decide) (by decide) (by decide) (by decide),
   C1_round_trip.2.2.2.2 _ (by decide) (by decide) (by decide) (by decide) (by decide)⟩

-- ===========================================================================
-- Claim C2

/-- C2 (amended): the encoder writes an index/offset array with 4-byte signed
integers exactly when the maximum value of the sequence (0 for an empty
sequence) is at most i32::MAX, and with 8-byte signed integers otherwise; the
choice is all-or-nothing per array (the whole payload is stored at the chosen
width).  An array containing 2147483648 is always written 8-byte, and one
whose maximum value is 2147483647 is always written 4-byte.  (The claim's
premise "if every value fits in the signed 32-bit range" is not what the code
checks: values below i32::MIN do not force the 8-byte width — see the
counterexample.) -/
theorem C2_width_selection {T : Type} (name : String) (l : List Int) :
    ((write_indices name l : String × Entry T).2.width = 4 ↔ maxOrZero l ≤ i32MAX) ∧
    ((write_indices name l : String × Entry T).2.width = 8 ↔ ¬maxOrZero l ≤ i32MAX) ∧
    ((write_indices name l : String × Entry T).2.width = 4 →
        (write_indices name l : String × Entry T).2
          = Entry.I32 [l.length] Order.C (l.map i64AsI32)) ∧
    ((write_indices name l : String × Entry T).2.width = 8 →
        (write_indices name l : String × Entry T).2 = Entry.I64 [l.length] Order.C l) ∧
    ((2 ^ 31 : Int) ∈ l → (write_indices name l : String × Entry T).2.width = 8) ∧
    (maxOrZero l = i32MAX → (write_indices name l : String × Entry T).2.width = 4) := by
  rw [write_indices_entry]
  by_cases hc : maxOrZero l ≤ i32MAX
  · rw [if_pos hc]
    refine ⟨by simp [Entry.width, hc], by simp [Entry.width, hc], fun _ => rfl,
            by simp [Entry.width], ?_, fun _ => rfl⟩
    intro hmem
    exfalso
    have h2 := le_of_maxOrZero_le hc _ hmem
    unfold i32MAX at h2
    omega
  · rw [if_neg hc]
    refine ⟨by simp [Entry.width, hc], by simp [Entry.width, hc], by simp [Entry.width],
            fun _ => rfl, fun _ => rfl, ?_⟩
    intro heq
    exact absurd (le_of_eq heq) hc

/-- C2 counterexample: the value -2^31 - 1 does not fit the signed 32-bit
range, yet the array containing it is written with 4-byte width (the encoder
consults only the maximum), contradicting the claim's "otherwise the whole
array is written as 8-byte signed integers". -/
theorem C2_counterexample :
    ((-(2 ^ 31) - 1 : Int) < -(2 ^ 31)) ∧
    (write_indices "offsets" [-(2 ^ 31) - 1] : String × Entry Unit).2.width = 4 :=
  ⟨by decide, rfl⟩

/-- C2 witness: the width selection evaluated at the two arrays named by the
claim. -/
theorem C2_witness :
    (write_indices "indices" [(2 ^ 31 : Int)] : String × Entry Unit).2.width = 8 ∧
    (write_indices "indices" [(2 ^ 31 - 1 : Int)] : String × Entry Unit).2.width = 4 :=
  ⟨(C2_width_selection "indices" [(2 ^ 31 : Int)]).2.2.2.2.1 (by decide),
   (C2_width_selection "indices" [(2 ^ 31 - 1 : Int)]).2.2.2.2.2 (by decide)⟩


-- ===========================================================================
-- Claim C3

theorem byName_rel {a1 a2 : Npz T} (h : npzRel a1 a2) (n : String) :
    (byName a1 n = none ∧ byName a2 n = none) ∨
    ∃ e1 e2, byName a1 n = some e1 ∧ byName a2 n = some e2 ∧ entryRel e1 e2 := by
  induction h with
  | nil => exact Or.inl ⟨rfl, rfl⟩
  | @cons p q t1 t2 hpq htail ih =>
    by_cases hn : p.1 = n
    · refine Or.inr ⟨p.2, q.2, ?_, ?_, hpq.2⟩
      · simp [byName, hn]
      · have hq : q.1 = n := hpq.1 ▸ hn
        simp [byName, hq]
    · have hq : ¬q.1 = n := hpq.1 ▸ hn
      rcases ih with ⟨h1, h2⟩ | ⟨e1, e2, h1, h2, hrel⟩
      · exact Or.inl ⟨by simp [byName, hn, h1], by simp [byName, hq, h2]⟩
      · exact Or.inr ⟨e1, e2, by simp [byName, hn, h1], by simp [byName, hq, h2], hrel⟩

theorem extract_indices_rel {a1 a2 : Npz T} (h : npzRel a1 a2) (n : String) :
    extract_indices a1 n = extract_indices a2 n := by
  unfold extract_indices extract_and_check_ndim
  rcases byName_rel h n with ⟨h1, h2⟩ | ⟨e1, e2, h1, h2, hrel⟩
  · rw [h1, h2]
  · rw [h1, h2]
    rcases hrel with rfl | ⟨sh, o, v, rfl, rfl, hv⟩
    · rfl
    · simp only [Entry.eshape]
      by_cases hd : sh.length ≠ 1
      · rw [if_pos hd, if_pos hd]
      · rw [if_neg hd, if_neg hd]
        rfl

theorem extract_signed_rel {a1 a2 : Npz T} (h : npzRel a1 a2) (n : String) :
    extract_signed_indices a1 n = extract_signed_indices a2 n := by
  unfold extract_signed_indices extract_and_check_ndim
  rcases byName_rel h n with ⟨h1, h2⟩ | ⟨e1, e2, h1, h2, hrel⟩
  · rw [h1, h2]
  · rw [h1, h2]
    rcases hrel with rfl | ⟨sh, o, v, rfl, rfl, hv⟩
    · rfl
    · simp only [Entry.eshape]
      by_cases hd : sh.length ≠ 1
      · rw [if_pos hd, if_pos hd]
      · rw [if_neg hd, if_neg hd]
        rfl

theorem extract_scalar_rel {a1 a2 : Npz T} (h : npzRel a1 a2) (n : String) :
    extract_scalar a1 n = extract_scalar a2 n := by
  unfold extract_scalar extract_and_check_ndim
  rcases byName_rel h n with ⟨h1, h2⟩ | ⟨e1, e2, h1, h2, hrel⟩
  · rw [h1, h2]
  · rw [h1, h2]
    rcases hrel with rfl | ⟨sh, o, v, rfl, rfl, hv⟩
    · rfl
    · simp only [Entry.eshape]
      by_cases hd : sh.length ≠ 0
      · rw [if_pos hd, if_pos hd]
      · rw [if_neg hd, if_neg hd]
        rfl

theorem extract_1d_rel {a1 a2 : Npz T} (h : npzRel a1 a2) (n : String) :
    extract_1d a1 n = extract_1d a2 n := by
  unfold extract_1d extract_and_check_ndim
  rcases byName_rel h n with ⟨h1, h2⟩ | ⟨e1, e2, h1, h2, hrel⟩
  · rw [h1, h2]
  · rw [h1, h2]
    rcases hrel with rfl | ⟨sh, o, v, rfl, rfl, hv⟩
    · rfl
    · simp only [Entry.eshape]
      by_cases hd : sh.length ≠ 1
      · rw [if_pos hd, if_pos hd]
      · rw [if_neg hd, if_neg hd]
        rfl

theorem extract_nd_rel {a1 a2 : Npz T} (h : npzRel a1 a2) (n : String) (k : Nat) :
    extract_nd a1 n k = extract_nd a2 n k := by
  unfold extract_nd extract_and_check_ndim
  rcases byName_rel h n with ⟨h1, h2⟩ | ⟨e1, e2, h1, h2, hrel⟩
  · rw [h1, h2]
  · rw [h1, h2]
    rcases hrel with rfl | ⟨sh, o, v, rfl, rfl, hv⟩
    · rfl
    · simp only [Entry.eshape]
      by_cases hd : sh.length ≠ k
      · rw [if_pos hd, if_pos hd]
      · rw [if_neg hd, if_neg hd]
        rw [ok_bind, ok_bind]
        cases o <;> rfl

theorem extract_shape_rel {a1 a2 : Npz T} (h : npzRel a1 a2) (n : String) :
    extract_shape a1 n = extract_shape a2 n := by
  unfold extract_shape
  rw [extract_indices_rel h n]

theorem extract_usize_rel {a1 a2 : Npz T} (h : npzRel a1 a2) (n : String) :
    extract_usize_indices a1 n = extract_usize_indices a2 n := by
  unfold extract_usize_indices
  rw [extract_indices_rel h n]

theorem expect_format_rel {a1 a2 : Npz T} (h : npzRel a1 a2) (tag : String) :
    expect_format a1 tag = expect_format a2 tag := by
  unfold expect_format
  rw [extract_scalar_rel h "format"]

/-- C3: every variant decoder (and the dispatch) returns identical results on
two archives that store the same arrays, where any index/offset array whose
values are representable in both widths may be stored as 4-byte signed
integers in the one archive and 8-byte signed integers in the other: decode
accepts either width, independently of which width encode would choose. -/
theorem C3_width_independence {T : Type} (a1 a2 : Npz T) (h : npzRel a1 a2) :
    Sparse.from_npz a1 = Sparse.from_npz a2 ∧
    Coo.from_npz a1 = Coo.from_npz a2 ∧
    Csr.from_npz a1 = Csr.from_npz a2 ∧
    Csc.from_npz a1 = Csc.from_npz a2 ∧
    Dia.from_npz a1 = Dia.from_npz a2 ∧
    Bsr.from_npz a1 = Bsr.from_npz a2 := by
  have hcoo : Coo.from_npz a1 = Coo.from_npz a2 := by
    unfold Coo.from_npz
    rw [expect_format_rel h, extract_shape_rel h, extract_indices_rel h "row",
        extract_indices_rel h "col", extract_1d_rel h]
  have hcsr : Csr.from_npz a1 = Csr.from_npz a2 := by
    unfold Csr.from_npz
    rw [expect_format_rel h, extract_shape_rel h, extract_indices_rel h,
        extract_usize_rel h, extract_1d_rel h]
  have hcsc : Csc.from_npz a1 = Csc.from_npz a2 := by
    unfold Csc.from_npz
    rw [expect_format_rel h, extract_shape_rel h, extract_indices_rel h,
        extract_usize_rel h, extract_1d_rel h]
  have hdia : Dia.from_npz a1 = Dia.from_npz a2 := by
    unfold Dia.from_npz
    rw [expect_format_rel h, extract_shape_rel h, extract_signed_rel h, extract_nd_rel h]
  have hbsr : Bsr.from_npz a1 = Bsr.from_npz a2 := by
    unfold Bsr.from_npz
    rw [expect_format_rel h, extract_shape_rel h, extract_indices_rel h,
        extract_usize_rel h, extract_nd_rel h]
  have hsp : Sparse.from_npz a1 = Sparse.from_npz a2 := by
    unfold Sparse.from_npz
    rw [extract_scalar_rel h "format", hcoo, hcsr, hcsc, hdia, hbsr]
  exact ⟨hsp, hcoo, hcsr, hcsc, hdia, hbsr⟩

/-- C3 witness: a coordinate archive whose `row` array is authored as i32 in
the one copy and i64 in the other decodes identically through the dispatch. -/
theorem C3_witness :
    npzRel
      [("format", Entry.Bytes [] Order.C [strBytes "coo"]),
       ("shape", Entry.I64 [2] Order.C [2, 2]),
       ("row", Entry.I32 [1] Order.C [1]),
       ("col", Entry.I64 [1] Order.C [0]),
       ("data", (Entry.Data [1] Order.C [(7 : Int)] : Entry Int))]
      [("format", Entry.Bytes [] Order.C [strBytes "coo"]),
       ("shape", Entry.I64 [2] Order.C [2, 2]),
       ("row", Entry.I64 [1] Order.C [1]),
       ("col", Entry.I64 [1] Order.C [0]),
       ("data", Entry.Data [1] Order.C [(7 : Int)])] ∧
    Sparse.from_npz
      [("format", Entry.Bytes [] Order.C [strBytes "coo"]),
       ("shape", Entry.I64 [2] Order.C [2, 2]),
       ("row", Entry.I32 [1] Order.C [1]),
       ("col", Entry.I64 [1] Order.C [0]),
       ("data", (Entry.Data [1] Order.C [(7 : Int)] : Entry Int))]
      = Sparse.from_npz
      [("format", Entry.Bytes [] Order.C [strBytes "coo"]),
       ("shape", Entry.I64 [2] Order.C [2, 2]),
       ("row", Entry.I64 [1] Order.C [1]),
       ("col", Entry.I64 [1] Order.C [0]),
       ("data", Entry.Data [1] Order.C [(7 : Int)])] := by
  have hrel : npzRel
      [("format", Entry.Bytes [] Order.C [strBytes "coo"]),
       ("shape", Entry.I64 [2] Order.C [2, 2]),
       ("row", Entry.I32 [1] Order.C [1]),
       ("col", Entry.I64 [1] Order.C [0]),
       ("data", (Entry.Data [1] Order.C [(7 : Int)] : Entry Int))]
      [("format", Entry.Bytes [] Order.C [strBytes "coo"]),
       ("shape", Entry.I64 [2] Order.C [2, 2]),
       ("row", Entry.I64 [1] Order.C [1]),
       ("col", Entry.I64 [1] Order.C [0]),
       ("data", Entry.Data [1] Order.C [(7 : Int)])] := by
    refine List.Forall₂.cons ⟨rfl, Or.inl rfl⟩ ?_
    refine List.Forall₂.cons ⟨rfl, Or.inl rfl⟩ ?_
    refine List.Forall₂.cons ⟨rfl, Or.inr ⟨[1], Order.C, [1], rfl, rfl, by decide⟩⟩ ?_
    refine List.Forall₂.cons ⟨rfl, Or.inl rfl⟩ ?_
    exact List.Forall₂.cons ⟨rfl, Or.inl rfl⟩ List.Forall₂.nil
  exact ⟨hrel, (C3_width_independence _ _ hrel).1⟩


-- ===========================================================================
-- Claim C4

/-- C4 (amended): on decoding a diagonal archive, the declared 2-D shape of
`data` is checked for rank 2 and row-major order and then discarded; the
decoded record keeps the flat data and the offsets, and divisibility of the
data length by the number of offsets is not required on decode (see the
counterexample).  For a well-formed archive whose `data` is declared with
shape [3, 7] and whose offsets array has length 3 the decoded record holds
21 data elements and 3 offsets, so the derived diagonal length is 21 / 3 = 7
(the witness evaluates this instance). -/
theorem C4_dia_decode {T : Type} (npz : Npz T) (s : Nat × Nat) (offs : List Int)
    (v : List T) (dsh : List Nat)
    (hf : expect_format npz "dia" = .ok ())
    (hs : extract_shape npz "shape" = .ok s)
    (ho : extract_signed_indices npz "offsets" = .ok offs)
    (hd : byName npz "data" = some (Entry.Data dsh Order.C v))
    (hdim : dsh.length = 2) :
    Dia.from_npz npz = .ok { shape := s, data := v, offsets := offs } := by
  have hnd : extract_nd npz "data" 2 = .ok (v, dsh) := by
    unfold extract_nd extract_and_check_ndim
    rw [hd]
    simp [Entry.eshape, Entry.eorder, hdim, ok_bind]
  unfold Dia.from_npz
  rw [hf, hs, ho, hnd]
  rfl

/-- C4 counterexample: a diagonal archive whose data length (6) is not
divisible by the number of offsets (4) decodes successfully, so no
divisibility requirement is enforced on decode; the declared shape is not
reflected in the decoded record either (it stores 6 flat elements and 4
offsets). -/
theorem C4_counterexample :
    Dia.from_npz
      [("format", Entry.Bytes [] Order.C [strBytes "dia"]),
       ("shape", Entry.I64 [2] Order.C [2, 2]),
       ("offsets", Entry.I32 [4] Order.C [0, 1, 2, 3]),
       ("data", (Entry.Data [2, 3] Order.C [(1 : Int), 2, 3, 4, 5, 6] : Entry Int))]
      = Except.ok { shape := (2, 2), data := [(1 : Int), 2, 3, 4, 5, 6],
                    offsets := [0, 1, 2, 3] } ∧
    [(1 : Int), 2, 3, 4, 5, 6].length % [(0 : Int), 1, 2, 3].length ≠ 0 :=
  ⟨rfl, by decide⟩

/-- C4 witness: the [3, 7]-shaped diagonal data example with 3 offsets yields
a record with 21 data elements, so diagonal length 21 / 3 = 7. -/
theorem C4_witness :
    Dia.from_npz
      [("format", Entry.Bytes [] Order.C [strBytes "dia"]),
       ("shape", Entry.I64 [2] Order.C [3, 9]),
       ("offsets", Entry.I32 [3] Order.C [0, 1, 2]),
       ("data", (Entry.Data [3, 7] Order.C ((List.range 21).map Int.ofNat) : Entry Int))]
      = Except.ok { shape := (3, 9), data := (List.range 21).map Int.ofNat,
                    offsets := [0, 1, 2] } ∧
    ((List.range 21).map Int.ofNat).length / [(0 : Int), 1, 2].length = 7 :=
  ⟨C4_dia_decode _ _ _ _ _ rfl rfl rfl rfl rfl, by decide⟩

-- ===========================================================================
-- Claim C5

/-- C5: on decoding a block-compressed-row archive, the blocksize is taken
directly from dimensions 1 and 2 of the 3-D declared shape of `data`, and a
data array not stored in row-major (C) element order fails with the
unsupported-order error. -/
theorem C5_bsr_decode {T : Type} (npz : Npz T) (s : Nat × Nat) (idx ptr : List Nat)
    (v : List T) (n b0 b1 : Nat) (ord : Order)
    (hf : expect_format npz "bsr" = .ok ())
    (hs : extract_shape npz "shape" = .ok s)
    (hi : extract_indices npz "indices" = .ok idx)
    (hp : extract_usize_indices npz "indptr" = .ok ptr)
    (hd : byName npz "data" = some (Entry.Data [n, b0, b1] ord v)) :
    (ord = Order.C →
        Bsr.from_npz npz
          = .ok { shape := s, blocksize := (b0, b1), data := v,
                  indices := idx, indptr := ptr }) ∧
    (ord = Order.Fortran → Bsr.from_npz npz = .error (fortranMsg "data")) := by
  constructor
  · rintro rfl
    have hnd : extract_nd npz "data" 3 = .ok (v, [n, b0, b1]) := by
      unfold extract_nd extract_and_check_ndim
      rw [hd]
      simp [Entry.eshape, Entry.eorder, ok_bind]
    unfold Bsr.from_npz
    rw [hf, hs, hi, hp, hnd]
    rfl
  · rintro rfl
    have hnd : extract_nd npz "data" 3 = .error (fortranMsg "data") := by
      unfold extract_nd extract_and_check_ndim
      rw [hd]
      simp [Entry.eshape, Entry.eorder, ok_bind]
    unfold Bsr.from_npz
    rw [hf, hs, hi, hp, hnd]
    rfl

/-- C5 witness: block data declared with shape [5, 2, 4] and indices of
length 5 decodes with blocksize (2, 4); the same archive with Fortran-order
data fails with the unsupported-order error. -/
theorem C5_witness :
    Bsr.from_npz
      [("format", Entry.Bytes [] Order.C [strBytes "bsr"]),
       ("shape", Entry.I64 [2] Order.C [10, 4]),
       ("indices", Entry.I32 [5] Order.C [0, 0, 0, 0, 0]),
       ("indptr", Entry.I32 [6] Order.C [0, 1, 2, 3, 4, 5]),
       ("data", (Entry.Data [5, 2, 4] Order.C ((List.range 40).map Int.ofNat) : Entry Int))]
      = Except.ok { shape := (10, 4), blocksize := (2, 4),
                    data := (List.range 40).map Int.ofNat,
                    indices := [0, 0, 0, 0, 0], indptr := [0, 1, 2, 3, 4, 5] } ∧
    Bsr.from_npz
      [("format", Entry.Bytes [] Order.C [strBytes "bsr"]),
       ("shape", Entry.I64 [2] Order.C [10, 4]),
       ("indices", Entry.I32 [5] Order.C [0, 0, 0, 0, 0]),
       ("indptr", Entry.I32 [6] Order.C [0, 1, 2, 3, 4, 5]),
       ("data", (Entry.Data [5, 2, 4] Order.Fortran ((List.range 40).map Int.ofNat) : Entry Int))]
      = Except.error (fortranMsg "data") := by
  have hC := C5_bsr_decode
    ([("format", Entry.Bytes [] Order.C [strBytes "bsr"]),
      ("shape", Entry.I64 [2] Order.C [10, 4]),
      ("indices", Entry.I32 [5] Order.C [0, 0, 0, 0, 0]),
      ("indptr", Entry.I32 [6] Order.C [0, 1, 2, 3, 4, 5]),
      ("data", (Entry.Data [5, 2, 4] Order.C ((List.range 40).map Int.ofNat) : Entry Int))] :
        Npz Int)
    (10, 4) [0, 0, 0, 0, 0] [0, 1, 2, 3, 4, 5] ((List.range 40).map Int.ofNat) 5 2 4 Order.C
    rfl rfl rfl rfl rfl
  have hF := C5_bsr_decode
    ([("format", Entry.Bytes [] Order.C [strBytes "bsr"]),
      ("shape", Entry.I64 [2] Order.C [10, 4]),
      ("indices", Entry.I32 [5] Order.C [0, 0, 0, 0, 0]),
      ("indptr", Entry.I32 [6] Order.C [0, 1, 2, 3, 4, 5]),
      ("data", (Entry.Data [5, 2, 4] Order.Fortran ((List.range 40).map Int.ofNat) : Entry Int))] :
        Npz Int)
    (10, 4) [0, 0, 0, 0, 0] [0, 1, 2, 3, 4, 5] ((List.range 40).map Int.ofNat) 5 2 4 Order.Fortran
    rfl rfl rfl rfl rfl
  exact ⟨hC.1 rfl, hF.2 rfl⟩

-- ===========================================================================
-- Claim C6

/-- C6: the dispatch reads the rank-0 byte-string array named `format`,
compares its bytes case-sensitively against the five tags (in the source's
match order coo, csc, csr, dia, bsr), routes to the matching per-variant
decoder, and for any other value fails with the bad-format error whose
message carries the escaped/printable rendering of the offending bytes. -/
theorem C6_dispatch {T : Type} (npz : Npz T) (bs : List Nat)
    (hf : extract_scalar npz "format" = .ok bs) :
    (bs = strBytes "coo" → Sparse.from_npz npz = Sparse.Coo <$> Coo.from_npz npz) ∧
    (bs = strBytes "csc" → Sparse.from_npz npz = Sparse.Csc <$> Csc.from_npz npz) ∧
    (bs = strBytes "csr" → Sparse.from_npz npz = Sparse.Csr <$> Csr.from_npz npz) ∧
    (bs = strBytes "dia" → Sparse.from_npz npz = Sparse.Dia <$> Dia.from_npz npz) ∧
    (bs = strBytes "bsr" → Sparse.from_npz npz = Sparse.Bsr <$> Bsr.from_npz npz) ∧
    (bs ≠ strBytes "coo" → bs ≠ strBytes "csc" → bs ≠ strBytes "csr" →
     bs ≠ strBytes "dia" → bs ≠ strBytes "bsr" →
        Sparse.from_npz npz = .error ("bad format: " ++ show_format bs)) := by
  unfold Sparse.from_npz
  rw [hf, ok_bind]
  refine ⟨?_, ?_, ?_, ?_, ?_, ?_⟩
  · rintro rfl
    rw [if_pos rfl]
  · rintro rfl
    rw [if_neg (by decide), if_pos rfl]
  · rintro rfl
    rw [if_neg (by decide), if_neg (by decide), if_pos rfl]
  · rintro rfl
    rw [if_neg (by decide), if_neg (by decide), if_neg (by decide), if_pos rfl]
  · rintro rfl
    rw [if_neg (by decide), if_neg (by decide), if_neg (by decide), if_neg (by decide),
        if_pos rfl]
  · intro h1 h2 h3 h4 h5
    rw [if_neg h1, if_neg h2, if_neg h3, if_neg h4, if_neg h5]
    rfl

/-- C6 witness: a discriminator of "xyz" yields the bad-format error with the
literal bytes echoed between quotes. -/
theorem C6_witness :
    Sparse.from_npz [("format", (Entry.Bytes [] Order.C [[120, 121, 122]] : Entry Int))]
      = Except.error ("bad format: " ++ show_format [120, 121, 122]) ∧
    show_format [120, 121, 122] = sq ++ "xyz" ++ sq := by
  have hd := C6_dispatch
    ([("format", (Entry.Bytes [] Order.C [[120, 121, 122]] : Entry Int))] : Npz Int)
    [120, 121, 122] rfl
  exact ⟨hd.2.2.2.2.2 (by decide) (by decide) (by decide) (by decide) (by decide), by decide⟩

-- ===========================================================================
-- Claim C7

/-- C7: every per-variant decoder first re-verifies that the stored
discriminator equals its own tag and fails with the wrong-format error
(reporting the expected tag and the actual bytes) otherwise. -/
theorem C7_expect_format {T : Type} (npz : Npz T) (bs : List Nat)
    (hf : extract_scalar npz "format" = .ok bs) :
    (bs ≠ strBytes "coo" → Coo.from_npz npz = .error (wrongFormatMsg "coo" bs)) ∧
    (bs ≠ strBytes "csr" → Csr.from_npz npz = .error (wrongFormatMsg "csr" bs)) ∧
    (bs ≠ strBytes "csc" → Csc.from_npz npz = .error (wrongFormatMsg "csc" bs)) ∧
    (bs ≠ strBytes "dia" → Dia.from_npz npz = .error (wrongFormatMsg "dia" bs)) ∧
    (bs ≠ strBytes "bsr" → Bsr.from_npz npz = .error (wrongFormatMsg "bsr" bs)) := by
  have hef : ∀ tag : String, bs ≠ strBytes tag →
      expect_format npz tag = .error (wrongFormatMsg tag bs) := by
    intro tag hne
    unfold expect_format
    rw [hf, ok_bind, if_pos hne]
  refine ⟨fun h => ?_, fun h => ?_, fun h => ?_, fun h => ?_, fun h => ?_⟩
  · unfold Coo.from_npz
    rw [hef "coo" h, error_bind]
  · unfold Csr.from_npz
    rw [hef "csr" h, error_bind]
  · unfold Csc.from_npz
    rw [hef "csc" h, error_bind]
  · unfold Dia.from_npz
    rw [hef "dia" h, error_bind]
  · unfold Bsr.from_npz
    rw [hef "bsr" h, error_bind]

/-- C7 witness: the coordinate decoder applied directly to an archive whose
discriminator is "csr" fails with the format-mismatch error. -/
theorem C7_witness :
    Coo.from_npz [("format", (Entry.Bytes [] Order.C [strBytes "csr"] : Entry Int))]
      = Except.error (wrongFormatMsg "coo" (strBytes "csr")) := by
  have hd := C7_expect_format
    ([("format", (Entry.Bytes [] Order.C [strBytes "csr"] : Entry Int))] : Npz Int)
    (strBytes "csr") rfl
  exact hd.1 (by decide)


-- ===========================================================================
-- Claim C8

/-- C8: on decode, the shape array must be rank-1 with exactly 2 elements and
any other length fails with the invalid-length error; every fetched array is
checked against its expected rank, a mismatch failing with the invalid-ndim
error naming the array and the expected and actual ranks (a 2-D row array fed
to the coordinate decoder included); an absent array fails with the
missing-array error naming the array. -/
theorem C8_rank_checks {T : Type} (npz : Npz T) :
    (∀ name d, byName npz name = none →
        extract_and_check_ndim npz name d = .error (missingMsg name)) ∧
    (∀ name d e, byName npz name = some e → e.eshape.length ≠ d →
        extract_and_check_ndim npz name d = .error (ndimMsg name e.eshape.length d)) ∧
    (∀ l, expect_format npz "coo" = .ok () → extract_indices npz "shape" = .ok l →
        l.length ≠ 2 → Coo.from_npz npz = .error (shapeLenMsg "shape" l.length)) ∧
    (∀ s e, expect_format npz "coo" = .ok () → extract_shape npz "shape" = .ok s →
        byName npz "row" = some e → e.eshape.length = 2 →
        Coo.from_npz npz = .error (ndimMsg "row" 2 1)) := by
  refine ⟨?_, ?_, ?_, ?_⟩
  · intro name d hnone
    unfold extract_and_check_ndim
    rw [hnone]
  · intro name d e hsome hne
    simp [extract_and_check_ndim, hsome, hne]
  · intro l hfmt hsh hlen
    have hshape : extract_shape npz "shape" = .error (shapeLenMsg "shape" l.length) := by
      unfold extract_shape
      rw [hsh, ok_bind]
      cases l with
      | nil => rfl
      | cons a t =>
        cases t with
        | nil => rfl
        | cons b t2 =>
          cases t2 with
          | nil => exact absurd rfl hlen
          | cons c t3 => rfl
    unfold Coo.from_npz
    rw [hfmt, ok_bind, hshape, error_bind]
  · intro s e hfmt hsh hrow hlen2
    have hri : extract_indices npz "row" = .error (ndimMsg "row" 2 1) := by
      unfold extract_indices extract_and_check_ndim
      rw [hrow]
      simp [hlen2, error_bind]
    unfold Coo.from_npz
    rw [hfmt, ok_bind, hsh, ok_bind, hri, error_bind]

/-- C8 witness: a shape array of length 3 yields the invalid-length error, and
a 2-D row array fed to the coordinate decoder yields the invalid-ndim error
naming the array and both ranks. -/
theorem C8_witness :
    Coo.from_npz
      [("format", Entry.Bytes [] Order.C [strBytes "coo"]),
       ("shape", (Entry.I64 [3] Order.C [2, 2, 2] : Entry Int))]
      = Except.error (shapeLenMsg "shape" 3) ∧
    Coo.from_npz
      [("format", Entry.Bytes [] Order.C [strBytes "coo"]),
       ("shape", Entry.I64 [2] Order.C [2, 2]),
       ("row", (Entry.I32 [1, 1] Order.C [0] : Entry Int))]
      = Except.error (ndimMsg "row" 2 1) := by
  have h1 := (C8_rank_checks
    ([("format", Entry.Bytes [] Order.C [strBytes "coo"]),
      ("shape", (Entry.I64 [3] Order.C [2, 2, 2] : Entry Int))] : Npz Int)).2.2.1
    [2, 2, 2] rfl rfl (by decide)
  have h2 := (C8_rank_checks
    ([("format", Entry.Bytes [] Order.C [strBytes "coo"]),
      ("shape", Entry.I64 [2] Order.C [2, 2]),
      ("row", (Entry.I32 [1, 1] Order.C [0] : Entry Int))] : Npz Int)).2.2.2
    (2, 2) (Entry.I32 [1, 1] Order.C [0]) rfl rfl rfl rfl
  exact ⟨h1, h2⟩

-- ===========================================================================
-- Claim C9

/-- C9: diagonal encode writes `data` as a rank-2 array of shape
[len(data) / len(offsets), len(offsets)], requiring the division to be exact
(and the divisor nonzero); block-row encode writes `data` as a rank-3 array
of shape [len(indices), blocksize.1, blocksize.2], requiring
len(data) = len(indices) * blocksize.1 * blocksize.2; a violated requirement
takes the panic (precondition-failure) path, modelled as `none` — no archive
is produced, so no silently truncated write and no recoverable error value. -/
theorem C9_encode_preconditions {T : Type} :
    (∀ m : Dia T, m.offsets.length ≠ 0 → m.data.length % m.offsets.length = 0 →
        ∃ a, m.write_npz = some a ∧
          byName a "data"
            = some (Entry.Data [m.data.length / m.offsets.length, m.offsets.length]
                Order.C m.data)) ∧
    (∀ m : Dia T, m.data.length % m.offsets.length ≠ 0 → m.write_npz = none) ∧
    (∀ m : Dia T, m.offsets.length = 0 → m.write_npz = none) ∧
    (∀ m : Bsr T, m.data.length = m.indices.length * m.blocksize.1 * m.blocksize.2 →
        ∃ a, m.write_npz = some a ∧
          byName a "data"
            = some (Entry.Data [m.indices.length, m.blocksize.1, m.blocksize.2]
                Order.C m.data)) ∧
    (∀ m : Bsr T, m.data.length ≠ m.indices.length * m.blocksize.1 * m.blocksize.2 →
        m.write_npz = none) := by
  refine ⟨?_, ?_, ?_, ?_, ?_⟩
  · intro m hne hdvd
    have hw : m.write_npz = some [write_format "dia", write_shape m.shape,
        write_indices "offsets" m.offsets,
        write_data m.data [m.data.length / m.offsets.length, m.offsets.length]] := by
      unfold Dia.write_npz
      rw [if_pos ⟨hne, hdvd⟩]
    exact ⟨_, hw, rfl⟩
  · intro m h
    unfold Dia.write_npz
    rw [if_neg (fun hcon => h hcon.2)]
  · intro m h0
    unfold Dia.write_npz
    rw [if_neg (fun hcon => hcon.1 h0)]
  · intro m hlen
    have hw : m.write_npz = some [write_format "bsr", write_shape m.shape,
        write_indices "indices" (m.indices.map u64AsI64),
        write_indices "indptr" (m.indptr.map u64AsI64),
        write_data m.data [m.indices.length, m.blocksize.1, m.blocksize.2]] := by
      unfold Bsr.write_npz
      rw [if_pos hlen]
    exact ⟨_, hw, rfl⟩
  · intro m hne
    unfold Bsr.write_npz
    rw [if_neg hne]

/-- C9 witness: a block-row record with len(data) different from
len(indices) * blocksize product, and a diagonal record with a non-dividing
data length, both encode to the panic path (no archive value). -/
theorem C9_witness :
    Bsr.write_npz
        { shape := (2, 2), blocksize := (1, 2), data := [(1 : Int)],
          indices := [0], indptr := [0, 1] } = none ∧
    Dia.write_npz { shape := (2, 2), data := [(1 : Int), 2, 3], offsets := [0, -1] }
      = none := by
  have h := @C9_encode_preconditions Int
  exact ⟨h.2.2.2.2 _ (by decide), h.2.1 _ (by decide)⟩

-- ===========================================================================
-- Claim C10

/-- C10: for every index array fetched on decode, a negative stored integer is
accepted without error and reinterpreted as its two's-complement 64-bit
unsigned value (sign extension, then bit-cast), so a stored -1 decodes to
2^64 - 1; indptr values are further cast to usize the same way, and the shape
pair is assembled from the same widening. -/
theorem C10_negative_indices {T : Type} (npz : Npz T) :
    (∀ name sh o v, byName npz name = some (Entry.I64 sh o v) → sh.length = 1 →
        extract_indices npz name = .ok (v.map asU64) ∧
        extract_usize_indices npz name = .ok ((v.map asU64).map u64AsUsize)) ∧
    (∀ name sh o v, byName npz name = some (Entry.I32 sh o v) → sh.length = 1 →
        extract_indices npz name = .ok (v.map asU64)) ∧
    (∀ sh o x y, byName npz "shape" = some (Entry.I64 sh o [x, y]) → sh.length = 1 →
        extract_shape npz "shape" = .ok (asU64 x, asU64 y)) ∧
    (∀ x : Int, -(2 ^ 64) < x → x < 0 →
        (asU64 x : Int) = 2 ^ 64 + x ∧ u64AsUsize (asU64 x) = asU64 x) := by
  have hidx : ∀ name sh o (v : List Int), byName npz name = some (Entry.I64 sh o v) →
      sh.length = 1 → extract_indices npz name = .ok (v.map asU64) := by
    intro name sh o v hb hsh
    unfold extract_indices extract_and_check_ndim
    rw [hb]
    simp [Entry.eshape, hsh, ok_bind]
  refine ⟨?_, ?_, ?_, ?_⟩
  · intro name sh o v hb hsh
    refine ⟨hidx name sh o v hb hsh, ?_⟩
    unfold extract_usize_indices
    rw [hidx name sh o v hb hsh, ok_bind]
  · intro name sh o v hb hsh
    unfold extract_indices extract_and_check_ndim
    rw [hb]
    simp [Entry.eshape, hsh, ok_bind]
  · intro sh o x y hb hsh
    unfold extract_shape
    rw [hidx "shape" sh o [x, y] hb hsh, ok_bind]
    rfl
  · intro x h1 h2
    exact ⟨asU64_of_neg h1 h2, u64AsUsize_eq (asU64_lt x)⟩

/-- C10 witness: a stored i64 value -1 in a rank-1 index array decodes to
2^64 - 1, both as a u64 index and through the usize cast. -/
theorem C10_witness :
    extract_indices [("row", (Entry.I64 [1] Order.C [-1] : Entry Int))] "row"
      = Except.ok [18446744073709551615] ∧
    extract_usize_indices [("row", (Entry.I64 [1] Order.C [-1] : Entry Int))] "row"
      = Except.ok [18446744073709551615] := by
  have h := (C10_negative_indices
    ([("row", (Entry.I64 [1] Order.C [-1] : Entry Int))] : Npz Int)).1
    "row" [1] Order.C [-1] rfl rfl
  refine ⟨?_, ?_⟩
  · rw [h.1]
    rfl
  · rw [h.2]
    rfl

end Npyz
